import Mathlib

/-!
Verification of the `ptr_info` memory-map resolver (Rust, `src/lib.rs`).

The library parses `/proc/self/maps`-style text lines into memory-region
records, finds the first record whose inclusive address range contains a
query address, and classifies the region from its permission string and
backing path, annotating the backing path with an occurrence count when
several records share it.

This file is a shallow embedding of the three source functions:
`parse_line`, `determine_region_type`, and the pass structure of `ptr_info`
(modelled here as the pure function `resolve` over an explicit list of
lines, as the I/O part only supplies lines and prints the result).
-/

namespace PtrInfo

/-- Splitting a character list on whitespace runs, accumulator form.
Mirrors Rust `str::split_whitespace`: runs of whitespace separate tokens
and produce no empty tokens. -/
def splitWsAux : List Char → List Char → List (List Char)
  | [], acc => if acc.isEmpty then [] else [acc.reverse]
  | c :: rest, acc =>
      if c.isWhitespace then
        if acc.isEmpty then splitWsAux rest []
        else acc.reverse :: splitWsAux rest []
      else splitWsAux rest (c :: acc)

/-- Rust `line.split_whitespace().collect()` on a line's characters. -/
def splitWs (l : List Char) : List (List Char) :=
  splitWsAux l []

/-- Splitting on a separator character, accumulator form. Mirrors Rust
`str::split(c)`: `n` separators produce `n + 1` (possibly empty) parts. -/
def splitOnCharAux (c : Char) : List Char → List Char → List (List Char)
  | [], acc => [acc.reverse]
  | x :: xs, acc =>
      if x = c then acc.reverse :: splitOnCharAux c xs []
      else splitOnCharAux c xs (x :: acc)

/-- Rust `parts[0].split('-').collect()`. -/
def splitOnChar (c : Char) (l : List Char) : List (List Char) :=
  splitOnCharAux c l []

/-- Value of one hexadecimal digit, as in Rust `char::to_digit(16)`. -/
def hexDigit? (c : Char) : Option Nat :=
  if '0' ≤ c ∧ c ≤ '9' then some (c.toNat - '0'.toNat)
  else if 'a' ≤ c ∧ c ≤ 'f' then some (c.toNat - 'a'.toNat + 10)
  else if 'A' ≤ c ∧ c ≤ 'F' then some (c.toNat - 'A'.toNat + 10)
  else none

/-- Digit-accumulation loop of Rust `usize::from_str_radix(_, 16)` on a
64-bit target: each step multiplies by 16 and adds the digit, failing on a
non-digit or on overflow past `2 ^ 64 - 1`. -/
def parseHexDigits (l : List Char) : Option Nat :=
  l.foldl
    (fun acc c =>
      match acc, hexDigit? c with
      | some a, some d => if a * 16 + d < 2 ^ 64 then some (a * 16 + d) else none
      | _, _ => none)
    (some 0)

/-- Rust `usize::from_str_radix(s, 16)`: an empty string fails, a leading
`+` is stripped (but `+` alone fails), a leading `-` fails for the unsigned
type, and the remaining characters go through the digit loop. -/
def fromStrRadix16 (s : List Char) : Option Nat :=
  match s with
  | [] => none
  | '+' :: rest => if rest.isEmpty then none else parseHexDigits rest
  | '-' :: _ => none
  | l => parseHexDigits l

/-- Result of `parse_line`: the `(start, end, permissions, file_path)`
tuple of the Rust source as a named record. `endAddr` stands for the
source's `end` (a Lean keyword). -/
structure MemRecord where
  start : Nat
  endAddr : Nat
  permissions : String
  backing : Option String
  deriving DecidableEq, Repr

/-- Rust `parse_line`: split the line on whitespace; fewer than 5 fields is
no record; field 0 split on `-` must give exactly 2 halves, each parsed as
base-16; field 1 is the permission string; field 5, when present, is the
backing path. -/
def parse_line (line : String) : Option MemRecord :=
  if (splitWs line.data).length < 5 then none
  else if (splitOnChar '-' ((splitWs line.data).getD 0 [])).length ≠ 2 then none
  else
    match fromStrRadix16 ((splitOnChar '-' ((splitWs line.data).getD 0 [])).getD 0 []),
          fromStrRadix16 ((splitOnChar '-' ((splitWs line.data).getD 0 [])).getD 1 []) with
    | some s, some e =>
        some { start := s
             , endAddr := e
             , permissions := String.mk ((splitWs line.data).getD 1 [])
             , backing := ((splitWs line.data)[5]?).map String.mk }
    | _, _ => none

/-- Substring test on character lists: does `pat` occur contiguously? -/
def listContains (pat : List Char) : List Char → Bool
  | [] => pat.isEmpty
  | x :: xs => pat.isPrefixOf (x :: xs) || listContains pat xs

/-- Rust `s.contains(pat)` for a string pattern: substring occurrence. -/
def strContains (s pat : String) : Bool :=
  listContains pat.data s.data

/-- Suffix test on strings, used to state the spec's "ends with a
shared-library suffix" wording. -/
def strEndsWith (s pat : String) : Bool :=
  pat.data.isSuffixOf s.data

/-- The `file_path` guards of `determine_region_type`: a `Some(path)`
pattern with a `path.contains(pat)` guard is false for `None`. -/
def optContains (file_path : Option String) (pat : String) : Bool :=
  match file_path with
  | some p => strContains p pat
  | none => false

/-- Rust `determine_region_type`: the ordered guard chain of the source's
`match`, first arm that applies wins. -/
def determine_region_type (permissions : String) (file_path : Option String) : String :=
  if optContains file_path "[stack]" = true then "stack"
  else if optContains file_path "[heap]" = true then "heap"
  else if permissions = "r-xp" then "text (executable code)"
  else if permissions = "rw-p" ∧ optContains file_path ".so" = true then "data in shared library"
  else if permissions = "r--p" ∧ optContains file_path ".so" = true then "read-only data in shared library"
  else if permissions = "rw-p" then "data or BSS"
  else "other"

/-- Histogram-pass predicate: the line parses and carries this backing. -/
def recordHasBacking (fp : String) (l : String) : Bool :=
  match parse_line l with
  | some r => r.backing == some fp
  | none => false

/-- Final value of the `file_counts` histogram of `ptr_info` at key `fp`:
the number of lines that parse to a record backed by `fp` (0 when the key
was never inserted). -/
def fileCount (lines : List String) (fp : String) : Nat :=
  lines.countP (recordHasBacking fp)

/-- Rust `file_counts.get(file_path).unwrap_or(&1)`: the histogram lookup
with its default of 1 when the key is absent (count 0 means absent key). -/
def lookupCount (lines : List String) (fp : String) : Nat :=
  if fileCount lines fp = 0 then 1 else fileCount lines fp

/-- The classification result printed by `ptr_info` for a matched record:
region kind, raw permissions, and the display label. -/
structure Classified where
  regionType : String
  permissions : String
  label : String
  deriving DecidableEq, Repr

/-- Output built by the match pass of `ptr_info` for the matched record
`r`, with the histogram taken over `allLines`. -/
def classifyRecord (allLines : List String) (r : MemRecord) : Classified :=
  { regionType := determine_region_type r.permissions r.backing
  , permissions := r.permissions
  , label :=
      match r.backing with
      | some fp =>
          if lookupCount allLines fp > 1 then
            fp ++ " [" ++ toString (lookupCount allLines fp) ++ "]"
          else fp
      | none => "anonymous" }

/-- Match pass of `ptr_info`: scan `rest` in order; for the first line that
parses to a record with `start <= address <= end`, return its
classification (with the histogram over `allLines`); otherwise none. -/
def resolveAux (address : Nat) (allLines : List String) : List String → Option Classified
  | [] => none
  | l :: rest =>
      match parse_line l with
      | some r =>
          if r.start ≤ address ∧ address ≤ r.endAddr then
            some (classifyRecord allLines r)
          else resolveAux address allLines rest
      | none => resolveAux address allLines rest

/-- The core of Rust `ptr_info` as a pure function: two passes over the
same line list — the histogram pass (inside `fileCount`/`lookupCount`) and
the match pass — returning the classification of the first containing
record, or `none` for "does not belong to any known section". -/
def resolve (address : Nat) (lines : List String) : Option Classified :=
  resolveAux address lines lines

/-- Containment test used to state first-match order: the line parses and
its inclusive range contains the address. -/
def lineMatches (address : Nat) (l : String) : Bool :=
  match parse_line l with
  | some r => decide (r.start ≤ address ∧ address ≤ r.endAddr)
  | none => false

/-- Modelled from the spec: the display-label rule of §4.2 stated with the
true occurrence count (number of parsed records sharing the backing),
rather than the source's defaulting histogram lookup. -/
def labelSpec (lines : List String) (backing : Option String) : String :=
  match backing with
  | none => "anonymous"
  | some fp =>
      if fileCount lines fp > 1 then
        fp ++ " [" ++ toString (fileCount lines fp) ++ "]"
      else fp

end PtrInfo

namespace PtrInfo

/-! ## Helper lemmas -/

theorem splitOnCharAux_length (c : Char) :
    ∀ (l acc : List Char), (splitOnCharAux c l acc).length = l.count c + 1 := by
  intro l
  induction l with
  | nil => intro acc; simp [splitOnCharAux]
  | cons x xs ih =>
      intro acc
      by_cases hx : x = c
      · simp [splitOnCharAux, hx, ih, List.count_cons]
      · simp [splitOnCharAux, hx, ih, List.count_cons]

theorem splitOnChar_length (c : Char) (l : List Char) :
    (splitOnChar c l).length = l.count c + 1 :=
  splitOnCharAux_length c l []

theorem resolveAux_eq_find (address : Nat) (allLines : List String) :
    ∀ rest : List String,
      resolveAux address allLines rest =
        (rest.find? (lineMatches address)).bind
          (fun l => (parse_line l).map (classifyRecord allLines)) := by
  intro rest
  induction rest with
  | nil => simp [resolveAux]
  | cons l rest ih =>
      cases hp : parse_line l with
      | none =>
          have hm : lineMatches address l = false := by
            simp [lineMatches, hp]
          simp [resolveAux, hp, List.find?, hm, ih]
      | some r =>
          by_cases hc : r.start ≤ address ∧ address ≤ r.endAddr
          · have hm : lineMatches address l = true := by
              simp [lineMatches, hp, hc]
            simp [resolveAux, hp, hc, List.find?, hm]
          · have hm : lineMatches address l = false := by
              simp only [lineMatches, hp, decide_eq_false_iff_not]
              exact hc
            simp [resolveAux, hp, hc, List.find?, hm, ih]

theorem resolve_eq_find (address : Nat) (lines : List String) :
    resolve address lines =
      (lines.find? (lineMatches address)).bind
        (fun l => (parse_line l).map (classifyRecord lines)) :=
  resolveAux_eq_find address lines lines

theorem fileCount_pos (lines : List String) (l : String) (r : MemRecord) (fp : String)
    (hl : l ∈ lines) (hp : parse_line l = some r) (hb : r.backing = some fp) :
    0 < fileCount lines fp := by
  have hpred : recordHasBacking fp l = true := by
    simp [recordHasBacking, hp, hb]
  exact List.countP_pos_iff.mpr ⟨l, hl, hpred⟩

end PtrInfo

namespace PtrInfo

/-! ## Claim theorems -/

/-- C1 counterexample: the record with permissions `"rw-p"` and backing
`"libc.so.6"` escapes rules 1-3, classifies as shared-library data, yet its
backing does not end with `".so"` — the source tests `contains(".so")`, not
a suffix, so "classifies iff backing ends with `.so`" is false. -/
theorem C1_ends_with_counterexample :
    strContains "libc.so.6" "[stack]" = false ∧
    strContains "libc.so.6" "[heap]" = false ∧
    ("rw-p" : String) ≠ "r-xp" ∧
    determine_region_type "rw-p" (some "libc.so.6") = "data in shared library" ∧
    strEndsWith "libc.so.6" ".so" = false := by
  decide

/-- C1 (amended): for a record escaping rules 1-3, permissions `"rw-p"`
classify as shared-library data iff the backing CONTAINS `".so"`, and
permissions `"r--p"` classify as read-only shared-library data iff the
backing contains `".so"`. -/
theorem C1_contains_so_classification (perms path : String)
    (h1 : strContains path "[stack]" = false)
    (h2 : strContains path "[heap]" = false)
    (h3 : perms ≠ "r-xp") :
    (perms = "rw-p" →
      (determine_region_type perms (some path) = "data in shared library" ↔
        strContains path ".so" = true)) ∧
    (perms = "r--p" →
      (determine_region_type perms (some path) = "read-only data in shared library" ↔
        strContains path ".so" = true)) := by
  constructor
  · intro hp; subst hp
    cases hso : strContains path ".so" <;>
      simp [determine_region_type, optContains, h1, h2, hso]
  · intro hp; subst hp
    cases hso : strContains path ".so" <;>
      simp [determine_region_type, optContains, h1, h2, hso]

/-- C1 witness: the amended classification at a concrete record. -/
theorem C1_contains_so_classification_witness :
    (("rw-p" : String) = "rw-p" →
      (determine_region_type "rw-p" (some "libexample.so") = "data in shared library" ↔
        strContains "libexample.so" ".so" = true)) ∧
    (("rw-p" : String) = "r--p" →
      (determine_region_type "rw-p" (some "libexample.so") = "read-only data in shared library" ↔
        strContains "libexample.so" ".so" = true)) :=
  C1_contains_so_classification "rw-p" "libexample.so" (by decide) (by decide) (by decide)

/-- C2 counterexample: the line `"00002000-00001000 r--p 00000000 fc:01 0"`
parses successfully (to start `0x2000`, end `0x1000`) yet violates
`start <= end` — the parser never checks the ordering of the two halves. -/
theorem C2_start_le_end_counterexample :
    ((parse_line "00002000-00001000 r--p 00000000 fc:01 0").map
        (fun r => decide (r.start ≤ r.endAddr))) = some false := by
  decide

/-- C2 (amended): on every line on which `parse_line` succeeds, `start` and
`end` are exactly the base-16 values of the first and second halves of
field 0; `start <= end` is not enforced and holds only when the first half
does not exceed the second. -/
theorem C2_start_end_are_parsed_halves (line : String) (r : MemRecord)
    (h : parse_line line = some r) :
    fromStrRadix16 ((splitOnChar '-' ((splitWs line.data).getD 0 [])).getD 0 []) =
      some r.start ∧
    fromStrRadix16 ((splitOnChar '-' ((splitWs line.data).getD 0 [])).getD 1 []) =
      some r.endAddr := by
  simp only [parse_line] at h
  split at h
  · simp at h
  · split at h
    · simp at h
    · split at h
      next s e h0 h1 =>
        injection h with h2
        subst h2
        exact ⟨h0, h1⟩
      next => simp at h

/-- C2 witness: the amended statement at a concrete successfully parsed
line. -/
theorem C2_start_end_are_parsed_halves_witness :
    fromStrRadix16
        ((splitOnChar '-' ((splitWs ("00001000-00002000 rw-p 0 0 0" : String).data).getD 0 [])).getD 0 []) =
      some 0x1000 ∧
    fromStrRadix16
        ((splitOnChar '-' ((splitWs ("00001000-00002000 rw-p 0 0 0" : String).data).getD 0 [])).getD 1 []) =
      some 0x2000 :=
  C2_start_end_are_parsed_halves "00001000-00002000 rw-p 0 0 0"
    { start := 0x1000, endAddr := 0x2000, permissions := "rw-p", backing := none }
    (by decide)

/-- C5: a record whose backing contains `"[stack]"` classifies as the stack
region for every permission string — rule 1 fires first, so the result is
never `"data or BSS"` even when rule 6 would also match. -/
theorem C5_stack_overrides_permissions (perms path : String)
    (h : strContains path "[stack]" = true) :
    determine_region_type perms (some path) = "stack" ∧
    determine_region_type perms (some path) ≠ "data or BSS" := by
  have hs : determine_region_type perms (some path) = "stack" := by
    simp [determine_region_type, optContains, h]
  refine ⟨hs, ?_⟩
  rw [hs]
  decide

/-- C5 witness: the stack rule beats rule 6 at permissions `"rw-p"`. -/
theorem C5_stack_overrides_permissions_witness :
    strContains "[stack]" "[stack]" = true ∧
    (determine_region_type "rw-p" (some "[stack]") = "stack" ∧
     determine_region_type "rw-p" (some "[stack]") ≠ "data or BSS") :=
  ⟨by decide, C5_stack_overrides_permissions "rw-p" "[stack]" (by decide)⟩

/-- C7: `parse_line` on the documented example line yields start
`0x400000`, end `0x40c000`, permissions `"r-xp"`, backing
`"/usr/bin/cat"`. -/
theorem C7_parse_line_example :
    parse_line "00400000-0040c000 r-xp 00000000 fc:01 123456 /usr/bin/cat" =
      some { start := 0x400000, endAddr := 0x40c000
           , permissions := "r-xp", backing := some "/usr/bin/cat" } := by
  decide

/-- C9: `resolve` is a pure function of the query address and the line
list — resolving the same inputs twice yields identical results, with no
hidden cross-call state. -/
theorem C9_resolve_deterministic (address : Nat) (lines : List String) :
    resolve address lines = resolve address lines := rfl

end PtrInfo

namespace PtrInfo

/-- C3: `resolve` returns the classification of the first line, in original
order, that parses to a record whose inclusive range contains the address
(`lineMatches` tests `start <= address <= end`); in particular both
boundary addresses `0x1000` and `0x2000` of range `1000-2000` match, and
with two overlapping records the earlier line wins. -/
theorem C3_resolve_first_inclusive_match :
    (∀ (address : Nat) (lines : List String),
        resolve address lines =
          (lines.find? (lineMatches address)).bind
            (fun l => (parse_line l).map (classifyRecord lines))) ∧
    (resolve 0x1000 ["00001000-00002000 r-xp 00000000 fc:01 0"]).isSome = true ∧
    (resolve 0x2000 ["00001000-00002000 r-xp 00000000 fc:01 0"]).isSome = true ∧
    resolve 0x1800
        ["00001000-00002000 r-xp 00000000 fc:01 1 first.so",
         "00001800-00003000 rw-p 00000000 fc:01 1 second.so"] =
      some { regionType := "text (executable code)"
           , permissions := "r-xp", label := "first.so" } :=
  ⟨resolve_eq_find, by decide, by decide, by decide⟩

/-- C4: `parse_line` yields no record exactly when the line has fewer than
5 whitespace fields, or field 0 does not contain exactly one `-`, or either
half of the range fails base-16 parsing; on every other line it yields a
record. -/
theorem C4_parse_line_none_iff (line : String) :
    parse_line line = none ↔
      ((splitWs line.data).length < 5 ∨
       ((splitWs line.data).getD 0 []).count '-' ≠ 1 ∨
       fromStrRadix16 ((splitOnChar '-' ((splitWs line.data).getD 0 [])).getD 0 []) = none ∨
       fromStrRadix16 ((splitOnChar '-' ((splitWs line.data).getD 0 [])).getD 1 []) = none) := by
  have hlen : (splitOnChar '-' ((splitWs line.data).getD 0 [])).length =
      ((splitWs line.data).getD 0 []).count '-' + 1 := splitOnChar_length _ _
  unfold parse_line
  split_ifs with h5 h2
  · exact iff_of_true rfl (Or.inl h5)
  · have hc : ((splitWs line.data).getD 0 []).count '-' ≠ 1 := by omega
    exact iff_of_true rfl (Or.inr (Or.inl hc))
  · rw [not_ne_iff] at h2
    have hc : ((splitWs line.data).getD 0 []).count '-' = 1 := by omega
    cases h0 : fromStrRadix16 ((splitOnChar '-' ((splitWs line.data).getD 0 [])).getD 0 []) with
    | none =>
        cases h1 :
            fromStrRadix16 ((splitOnChar '-' ((splitWs line.data).getD 0 [])).getD 1 []) with
        | none => exact iff_of_true rfl (Or.inr (Or.inr (Or.inl rfl)))
        | some e => exact iff_of_true rfl (Or.inr (Or.inr (Or.inl rfl)))
    | some s =>
        cases h1 :
            fromStrRadix16 ((splitOnChar '-' ((splitWs line.data).getD 0 [])).getD 1 []) with
        | none => exact iff_of_true rfl (Or.inr (Or.inr (Or.inr rfl)))
        | some e =>
            refine iff_of_false (fun hcontra => Option.noConfusion hcontra) ?_
            rintro (h | h | h | h)
            · exact h5 h
            · exact h hc
            · exact Option.noConfusion h
            · exact Option.noConfusion h

/-- C6: for the matched record, `resolve` returns its classification, and
the display label follows the spec's rule with the TRUE occurrence count:
`"anonymous"` for an absent backing, `"<path> [<count>]"` when more than
one parsed record shares the backing, plain `<path>` otherwise. -/
theorem C6_display_label (address : Nat) (lines : List String) (l : String) (r : MemRecord)
    (hf : lines.find? (lineMatches address) = some l)
    (hp : parse_line l = some r) :
    resolve address lines = some (classifyRecord lines r) ∧
    (classifyRecord lines r).label = labelSpec lines r.backing := by
  constructor
  · rw [resolve_eq_find, hf]
    simp [hp]
  · cases hb : r.backing with
    | none => simp [classifyRecord, labelSpec, hb]
    | some fp =>
        have hl : l ∈ lines := List.mem_of_find?_eq_some hf
        have hpos := fileCount_pos lines l r fp hl hp hb
        have hlk : lookupCount lines fp = fileCount lines fp := by
          unfold lookupCount
          rw [if_neg (by omega)]
        simp [classifyRecord, labelSpec, hb, hlk]

/-- C6 witness: three records backed by `libfoo.so` and one by `libbar.so`;
resolving into the first `libfoo.so` record labels `"libfoo.so [3]"`. -/
theorem C6_display_label_witness :
    (resolve 0x1500
        ["00001000-00002000 r-xp 00000000 fc:01 1 libfoo.so",
         "00003000-00004000 rw-p 00000000 fc:01 1 libfoo.so",
         "00005000-00006000 r--p 00000000 fc:01 1 libfoo.so",
         "00007000-00008000 r-xp 00000000 fc:01 1 libbar.so"] =
      some (classifyRecord
        ["00001000-00002000 r-xp 00000000 fc:01 1 libfoo.so",
         "00003000-00004000 rw-p 00000000 fc:01 1 libfoo.so",
         "00005000-00006000 r--p 00000000 fc:01 1 libfoo.so",
         "00007000-00008000 r-xp 00000000 fc:01 1 libbar.so"]
        { start := 0x1000, endAddr := 0x2000
        , permissions := "r-xp", backing := some "libfoo.so" }) ∧
     (classifyRecord
        ["00001000-00002000 r-xp 00000000 fc:01 1 libfoo.so",
         "00003000-00004000 rw-p 00000000 fc:01 1 libfoo.so",
         "00005000-00006000 r--p 00000000 fc:01 1 libfoo.so",
         "00007000-00008000 r-xp 00000000 fc:01 1 libbar.so"]
        { start := 0x1000, endAddr := 0x2000
        , permissions := "r-xp", backing := some "libfoo.so" }).label =
      labelSpec
        ["00001000-00002000 r-xp 00000000 fc:01 1 libfoo.so",
         "00003000-00004000 rw-p 00000000 fc:01 1 libfoo.so",
         "00005000-00006000 r--p 00000000 fc:01 1 libfoo.so",
         "00007000-00008000 r-xp 00000000 fc:01 1 libbar.so"]
        (some "libfoo.so")) ∧
    (classifyRecord
        ["00001000-00002000 r-xp 00000000 fc:01 1 libfoo.so",
         "00003000-00004000 rw-p 00000000 fc:01 1 libfoo.so",
         "00005000-00006000 r--p 00000000 fc:01 1 libfoo.so",
         "00007000-00008000 r-xp 00000000 fc:01 1 libbar.so"]
        { start := 0x1000, endAddr := 0x2000
        , permissions := "r-xp", backing := some "libfoo.so" }).label =
      "libfoo.so [3]" :=
  ⟨C6_display_label 0x1500
      ["00001000-00002000 r-xp 00000000 fc:01 1 libfoo.so",
       "00003000-00004000 rw-p 00000000 fc:01 1 libfoo.so",
       "00005000-00006000 r--p 00000000 fc:01 1 libfoo.so",
       "00007000-00008000 r-xp 00000000 fc:01 1 libbar.so"]
      "00001000-00002000 r-xp 00000000 fc:01 1 libfoo.so"
      { start := 0x1000, endAddr := 0x2000
      , permissions := "r-xp", backing := some "libfoo.so" }
      (by decide) (by decide),
   by decide⟩

/-- C8: `resolve` yields the not-found outcome (`none`) exactly when no
successfully parsed record's inclusive range contains the query address;
unparsable lines are skipped and never surface as errors. -/
theorem C8_not_found_iff_no_containing_record (address : Nat) (lines : List String) :
    resolve address lines = none ↔
      ∀ r ∈ lines.filterMap parse_line,
        ¬ (r.start ≤ address ∧ address ≤ r.endAddr) := by
  have hbind :
      ((lines.find? (lineMatches address)).bind
          (fun l => (parse_line l).map (classifyRecord lines))) = none ↔
        lines.find? (lineMatches address) = none := by
    cases hf : lines.find? (lineMatches address) with
    | none => simp
    | some l =>
        have hm : lineMatches address l = true := List.find?_some hf
        cases hp : parse_line l with
        | none => simp [lineMatches, hp] at hm
        | some r => simp [hp]
  rw [resolve_eq_find, hbind, List.find?_eq_none]
  constructor
  · intro h r hr
    obtain ⟨l, hl, hpl⟩ := List.mem_filterMap.mp hr
    have hx := h l hl
    simp [lineMatches, hpl] at hx
    intro hcon
    have := hx hcon.1
    omega
  · intro h l hl
    cases hp : parse_line l with
    | none => simp [lineMatches, hp]
    | some r =>
        have hr : r ∈ lines.filterMap parse_line := List.mem_filterMap.mpr ⟨l, hl, hp⟩
        have hnc := h r hr
        simp [lineMatches, hp]
        intro ha
        by_contra hnot
        exact hnc ⟨ha, by omega⟩

/-- C10: a matched record's backing is always present in the histogram with
count at least 1, so the lookup's default of 1 is unreachable and the
looked-up count equals the true number of records sharing the backing. -/
theorem C10_histogram_default_unreachable (lines : List String) (l : String) (r : MemRecord)
    (fp : String) (hl : l ∈ lines) (hp : parse_line l = some r) (hb : r.backing = some fp) :
    1 ≤ fileCount lines fp ∧ lookupCount lines fp = fileCount lines fp := by
  have hpos := fileCount_pos lines l r fp hl hp hb
  refine ⟨hpos, ?_⟩
  unfold lookupCount
  rw [if_neg (by omega)]

/-- C10 witness: the histogram fact at a concrete one-line map. -/
theorem C10_histogram_default_unreachable_witness :
    1 ≤ fileCount ["00001000-00002000 r-xp 00000000 fc:01 1 libz.so"] "libz.so" ∧
    lookupCount ["00001000-00002000 r-xp 00000000 fc:01 1 libz.so"] "libz.so" =
      fileCount ["00001000-00002000 r-xp 00000000 fc:01 1 libz.so"] "libz.so" :=
  C10_histogram_default_unreachable
    ["00001000-00002000 r-xp 00000000 fc:01 1 libz.so"]
    "00001000-00002000 r-xp 00000000 fc:01 1 libz.so"
    { start := 0x1000, endAddr := 0x2000
    , permissions := "r-xp", backing := some "libz.so" }
    "libz.so" (by decide) (by decide) (by decide)

end PtrInfo
